import Mathlib

/-!
# Verification of the llm-mux admission-and-execution pipeline

A shallow embedding of the rate-limiting engine (`src/rate_limiter.rs`),
the schema validator (`src/schema.rs`), the gemini adapter's fenced-code
extraction (`src/provider/gemini.rs`), and the `generate` request handler
(`src/main.rs`), together with proofs of the specified properties.

Modelling conventions:
* `Instant` readings are natural numbers (abstract clock ticks); `Duration`
  subtraction on instants saturates at zero, as Rust's does.
* The `u32` counter of the concurrency limiter is a `Nat` reduced modulo
  `2 ^ 32` at every increment/decrement, mirroring the wrapping behaviour
  of `AtomicU32::fetch_sub` / `fetch_add`.
* The `DashMap` registry is a function from keys to optional entries.
* Sequential semantics: each atomic operation of the Rust code becomes one
  step of a pure state-passing function; `Instant::now()` readings become
  explicit clock parameters, constrained to be monotone where relevant.
-/

namespace LlmMux

/-- `2 ^ 32`, the modulus of the `u32` concurrency counter. -/
def u32Mod : Nat := 4294967296

/-- From `src/config.rs`: per-model settings (all caps optional). -/
structure ModelSettings where
  rps : Option Nat
  rpm : Option Nat
  concurrent : Option Nat
  timeout_secs : Option Nat
deriving Repr, DecidableEq

/-- From `src/main.rs` usage and the spec §3: per-provider settings —
a `supports_auto_model` flag plus the same quadruple of caps, applied
when the caller omits a model. (The struct is declared in the config
module; its fields are exactly those read in `src/main.rs`.) -/
structure ProviderSettings where
  supports_auto_model : Bool
  rps : Option Nat
  rpm : Option Nat
  concurrent : Option Nat
  timeout_secs : Option Nat
deriving Repr, DecidableEq

/-- From `src/rate_limiter.rs`: a sliding window with a duration, a cap,
and a queue of timestamps (`VecDeque<Instant>`, front = head). -/
structure SlidingWindow where
  window : Nat
  max_requests : Nat
  timestamps : List Nat
deriving Repr, DecidableEq

/-- `SlidingWindow::new`. -/
def SlidingWindow.new (window max_requests : Nat) : SlidingWindow :=
  ⟨window, max_requests, []⟩

/-- The eviction loop at the head of `SlidingWindow::try_acquire`: pop
timestamps from the front while they are older than `now - window`
(`Instant` subtraction saturates, hence `Nat` subtraction). -/
def SlidingWindow.evict (w : SlidingWindow) (now : Nat) : List Nat :=
  w.timestamps.dropWhile (fun t => decide (t < now - w.window))

/-- `SlidingWindow::try_acquire`, with the `Instant::now()` reading made an
explicit parameter. Pops expired timestamps from the front (`t < cutoff`),
then appends `now` iff the remaining count is below the cap. Returns the
success flag and the successor state. -/
def SlidingWindow.try_acquire (w : SlidingWindow) (now : Nat) :
    Bool × SlidingWindow :=
  let ts := w.evict now
  if ts.length < w.max_requests then
    (true, { w with timestamps := ts ++ [now] })
  else
    (false, { w with timestamps := ts })

/-- From `src/rate_limiter.rs`: the bounded concurrency counter.
`current` is kept below `2 ^ 32` by the wrapping arithmetic. -/
structure ConcurrentLimiter where
  max : Nat
  current : Nat
deriving Repr, DecidableEq

/-- `ConcurrentLimiter::new`. -/
def ConcurrentLimiter.new (max : Nat) : ConcurrentLimiter :=
  ⟨max, 0⟩

/-- `ConcurrentLimiter::try_acquire`: the CAS loop, sequentially, is an
increment guarded by `current < max`. -/
def ConcurrentLimiter.try_acquire (c : ConcurrentLimiter) :
    Bool × ConcurrentLimiter :=
  if c.current ≥ c.max then (false, c)
  else (true, { c with current := (c.current + 1) % u32Mod })

/-- The wrapping `fetch_sub(1)` used by guard release and by the rollback
in `RateLimiter::try_acquire`. -/
def ConcurrentLimiter.release (c : ConcurrentLimiter) : ConcurrentLimiter :=
  { c with current := (c.current + (u32Mod - 1)) % u32Mod }

/-- From `src/rate_limiter.rs`: composite per-key limiter. -/
structure ModelLimiter where
  rps : Option SlidingWindow
  rpm : Option SlidingWindow
  concurrent : Option ConcurrentLimiter
deriving Repr, DecidableEq

/-- Nanoseconds in `Duration::from_secs(1)` (abstract ticks; any positive
unit works, the proofs never depend on the value). -/
def oneSecond : Nat := 1000000000

/-- `ModelLimiter::new`: RPS window of one second, RPM window of sixty
seconds, concurrency from the `concurrent` cap. -/
def ModelLimiter.new (config : ModelSettings) : ModelLimiter where
  rps := config.rps.map (fun limit => SlidingWindow.new oneSecond limit)
  rpm := config.rpm.map (fun limit => SlidingWindow.new (60 * oneSecond) limit)
  concurrent := config.concurrent.map ConcurrentLimiter.new

/-- `ModelLimiter::try_acquire_rate`: RPS first, then RPM, each only when
configured; a failed RPS check short-circuits past RPM. Each window reads
its own clock (`now1` for RPS, `now2` for RPM). Note a failing window has
still evicted its expired timestamps. -/
def ModelLimiter.try_acquire_rate (m : ModelLimiter) (now1 now2 : Nat) :
    Bool × ModelLimiter :=
  let step1 : Bool × ModelLimiter :=
    match m.rps with
    | none => (true, m)
    | some w =>
      let r := w.try_acquire now1
      (r.1, { m with rps := some r.2 })
  if step1.1 then
    match step1.2.rpm with
    | none => (true, step1.2)
    | some w =>
      let r := w.try_acquire now2
      (r.1, { step1.2 with rpm := some r.2 })
  else
    (false, step1.2)

/-- `ModelLimiter::try_acquire_concurrent`. -/
def ModelLimiter.try_acquire_concurrent (m : ModelLimiter) :
    Bool × ModelLimiter :=
  match m.concurrent with
  | none => (true, m)
  | some c =>
    let r := c.try_acquire
    (r.1, { m with concurrent := some r.2 })

/-- The rollback performed by `RateLimiter::try_acquire` when the rate
check fails after the concurrency slot was taken. -/
def ModelLimiter.releaseConcurrent (m : ModelLimiter) : ModelLimiter :=
  match m.concurrent with
  | none => m
  | some c => { m with concurrent := some c.release }

/-- The `DashMap<(String, String), Arc<ModelLimiter>>` registry, as a map
from keys to optional entries. -/
def RateLimiter := String × String → Option ModelLimiter

/-- `RateLimiter::new`. -/
def RateLimiter.new : RateLimiter := fun _ => none

/-- `RateLimiter::register`: insert or replace. -/
def RateLimiter.register (r : RateLimiter) (provider model : String)
    (config : ModelSettings) : RateLimiter :=
  fun k => if k = (provider, model) then some (ModelLimiter.new config) else r k

/-- Point update of one registry entry (mutation through the `Arc`). -/
def RateLimiter.update (r : RateLimiter) (key : String × String)
    (lim : ModelLimiter) : RateLimiter :=
  fun k => if k = key then some lim else r k

/-- `ConcurrentGuard`: holds either nothing (empty guard, unregistered key)
or the key of the entry whose `Arc<ModelLimiter>` it owns. -/
structure ConcurrentGuard where
  limiter : Option (String × String)
deriving Repr, DecidableEq

/-- `impl Drop for ConcurrentGuard`: decrement the entry's concurrency
counter, when the guard holds an entry and the entry has one. -/
def ConcurrentGuard.drop (g : ConcurrentGuard) (r : RateLimiter) :
    RateLimiter :=
  match g.limiter with
  | none => r
  | some key =>
    match r key with
    | none => r
    | some lim => r.update key lim.releaseConcurrent

/-- `RateLimiter::try_acquire`: look up the key (absent → empty guard);
concurrency first; on rate failure release the just-taken concurrency slot;
on success return a guard owning the entry. `now1`/`now2` are the RPS and
RPM clock readings. -/
def RateLimiter.try_acquire (r : RateLimiter) (provider model : String)
    (now1 now2 : Nat) : Except Unit ConcurrentGuard × RateLimiter :=
  let key := (provider, model)
  match r key with
  | none => (Except.ok ⟨none⟩, r)
  | some lim =>
    let c := lim.try_acquire_concurrent
    if !c.1 then
      (Except.error (), r.update key c.2)
    else
      let rate := c.2.try_acquire_rate now1 now2
      if rate.1 then
        (Except.ok ⟨some key⟩, r.update key rate.2)
      else
        (Except.error (), r.update key rate.2.releaseConcurrent)

/-! ## JSON values (`serde_json::Value`) -/

/-- `serde_json::Value`. Numbers are integers (sufficient for the claims,
none of which depend on number representation). Objects are association
lists of key/value pairs. -/
inductive Json where
  | null
  | bool (b : Bool)
  | num (n : Int)
  | str (s : String)
  | arr (elems : List Json)
  | obj (fields : List (String × Json))

/-- Map lookup on an object's fields (`serde_json::Map::get`). -/
def jlookup (fields : List (String × Json)) (key : String) : Option Json :=
  (fields.find? (fun f => f.1 = key)).map (fun f => f.2)

/-! ## Errors (`src/error.rs`) -/

/-- `AppError` from `src/error.rs`. -/
inductive AppError where
  | ProviderExecution (message stderr : String)
  | ProviderNotFound (name : String)
  | ModelNotFound (provider : String) (model : Option String)
  | RateLimited (provider : String) (model : Option String)
  | AutoModelNotSupported (name : String)
  | Timeout (provider : String) (timeout_secs : Nat)
  | InvalidSchema (msg : String)
  | ConfigLoad (msg : String)
  | OutputParse (message stdout : String)
  | OutputValidation (errors : List String) (output : Json)

/-- The HTTP status assigned by `impl ResponseError for AppError`. -/
def AppError.status : AppError → Nat
  | .ProviderExecution _ _ => 500
  | .ProviderNotFound _ => 400
  | .ModelNotFound _ _ => 400
  | .AutoModelNotSupported _ => 400
  | .RateLimited _ _ => 429
  | .Timeout _ _ => 504
  | .InvalidSchema _ => 400
  | .ConfigLoad _ => 500
  | .OutputParse _ _ => 500
  | .OutputValidation _ _ => 422

/-! ## Schema validation (`src/schema.rs`)

`jsonschema::Validator::new` is an external crate; its success/failure and
its validation verdict enter the model as an oracle. -/

/-- Oracle for the external `jsonschema` crate: whether a schema compiles
(`Validator::new(schema).is_ok()`), whether an instance is valid
(`validator.is_valid(output)`), and the rendered error list. -/
structure SchemaOracle where
  compiles : Json → Bool
  is_valid : Json → Json → Bool
  errors : Json → Json → List String

/-- `validate_structured_schema` from `src/schema.rs`: the root must be an
object, its `type` must be the string `"object"`, its `properties` must be
an object, and the whole schema must compile. -/
def validate_structured_schema (oracle : SchemaOracle) (schema : Json) :
    Except AppError Unit :=
  match schema with
  | Json.obj fields =>
    match jlookup fields "type" with
    | some (Json.str "object") =>
      match jlookup fields "properties" with
      | some (Json.obj _) =>
        if oracle.compiles schema then Except.ok ()
        else Except.error (AppError.InvalidSchema "invalid JSON Schema")
      | some _ =>
        Except.error (AppError.InvalidSchema "properties must be an object")
      | none =>
        Except.error (AppError.InvalidSchema "schema must have \"properties\"")
    | some _ =>
      Except.error (AppError.InvalidSchema "schema type must be \"object\"")
    | none =>
      Except.error
        (AppError.InvalidSchema "schema must have \"type\": \"object\"")
  | _ => Except.error (AppError.InvalidSchema "schema must be an object")

/-- `validate_output` from `src/schema.rs`. -/
def validate_output (oracle : SchemaOracle) (schema output : Json) :
    Except AppError Unit :=
  if oracle.compiles schema then
    if oracle.is_valid schema output then Except.ok ()
    else
      Except.error (AppError.OutputValidation (oracle.errors schema output) output)
  else Except.error (AppError.InvalidSchema "invalid JSON Schema")

/-! ## Fenced-code extraction (`src/provider/gemini.rs`) -/

/-- `str::find` for a pattern: index of the first occurrence, if any. -/
def findSub (pat : List Char) : List Char → Option Nat
  | [] => if pat.isEmpty then some 0 else none
  | c :: rest =>
    if pat.isPrefixOf (c :: rest) then some 0
    else (findSub pat rest).map (fun i => i + 1)

/-- `str::trim`: drop whitespace from both ends. -/
def trimChars (s : List Char) : List Char :=
  (s.dropWhile Char.isWhitespace).rdropWhile Char.isWhitespace

/-- `extract_json` from `src/provider/gemini.rs`, on character lists.
Prefer a block opened by a json fence; otherwise any plain fence, skipping
the remainder of its opening line; in both cases the block runs to the
next closing fence and is trimmed. Note the Rust falls through to the
plain-fence case when a json fence has no closing fence. -/
def extract_json (text : List Char) : Option (List Char) :=
  let viaJsonFence : Option (List Char) :=
    match findSub ("```json".toList) text with
    | some start =>
      let cs := start + 7
      match findSub ("```".toList) (text.drop cs) with
      | some e => some (trimChars ((text.drop cs).take e))
      | none => none
    | none => none
  match viaJsonFence with
  | some r => some r
  | none =>
    match findSub ("```".toList) text with
    | some start =>
      let cs0 := start + 3
      let cs :=
        match findSub ("\n".toList) (text.drop cs0) with
        | some i => cs0 + i + 1
        | none => cs0
      match findSub ("```".toList) (text.drop cs) with
      | some e => some (trimChars ((text.drop cs).take e))
      | none => none
    | none => none

/-- The extraction step actually applied to provider stdout:
`extract_json(&output.stdout).unwrap_or(&output.stdout)`. -/
def extractStep (text : List Char) : List Char :=
  (extract_json text).getD text

/-- Hexadecimal digit characters, for JSON string escapes. -/
def hexDigit (n : Nat) : Char :=
  if n < 10 then Char.ofNat (48 + n) else Char.ofNat (87 + n)

/-- `serde_json` escaping of one character inside a JSON string literal. -/
def escapeChar (c : Char) : List Char :=
  if c = '"' then ['\\', '"']
  else if c = '\\' then ['\\', '\\']
  else if c = '\n' then ['\\', 'n']
  else if c = '\t' then ['\\', 't']
  else if c = '\r' then ['\\', 'r']
  else if c.toNat < 32 then
    ['\\', 'u', '0', '0', hexDigit (c.toNat / 16), hexDigit (c.toNat % 16)]
  else [c]

/-- `serde_json::to_string` (compact form) on the `Json` model. -/
def serializeJson : Json → List Char
  | .null => "null".toList
  | .bool true => "true".toList
  | .bool false => "false".toList
  | .num n => (toString n).toList
  | .str s => '"' :: (s.toList.flatMap escapeChar) ++ ['"']
  | .arr elems =>
    '[' :: (List.intercalate (",".toList)
      (elems.attach.map (fun x => serializeJson x.1))) ++ [']']
  | .obj fields =>
    Char.ofNat 123 :: (List.intercalate (",".toList)
      (fields.attach.map (fun f =>
        ('"' :: (f.1.1.toList.flatMap escapeChar) ++ ['"', ':'])
          ++ serializeJson f.1.2))) ++ [Char.ofNat 125]
termination_by j => sizeOf j
decreasing_by
  · simp only [Json.arr.sizeOf_spec]
    have h := List.sizeOf_lt_of_mem x.2
    omega
  · simp only [Json.obj.sizeOf_spec]
    have h := List.sizeOf_lt_of_mem f.2
    have h2 : sizeOf f.1.2 < sizeOf f.1 := by
      obtain ⟨⟨a, b⟩, hf⟩ := f
      simp only [Prod.mk.sizeOf_spec]
      omega
    omega

/-- Whether a `Json` value is an object. -/
def Json.isObj : Json → Bool
  | .obj _ => true
  | _ => false

/-! ## The `generate` handler (`src/main.rs`) -/

/-- The body of a POST `/generate` request. -/
structure GenerateRequest where
  provider : String
  model : Option String
  prompt : String
  schema : Json

/-- The shared application state read by the handler. The registry is
threaded explicitly through the handler's steps. -/
structure AppState where
  rate_limiter : RateLimiter
  model_settings : String × String → Option ModelSettings
  provider_settings : String → Option ProviderSettings

/-- `get_provider_with_executor` from `src/provider/mod.rs`: the three
built-in adapter names, independent of configuration. The adapter itself
is abstracted by its name; its behaviour is an oracle of the handler. -/
def get_provider_with_executor (name : String) : Option String :=
  match name with
  | "codex" => some "codex"
  | "claude" => some "claude"
  | "gemini" => some "gemini"
  | _ => none

/-- Oracle for a provider adapter's `execute(prompt, schema, model,
timeout_secs)` (subprocess behaviour is outside the model). -/
def ExecOracle : Type :=
  String → String → Json → Option String → Option Nat → Except AppError Json

/-- The outcome of one `generate` call: the HTTP-level response, the
registry state after the handler returns (admission guard dropped), whether
the provider adapter's `execute` was invoked, and the `_guard` value held
across the invocation (`none` on paths that never reach the invocation). -/
structure HandlerResult where
  response : Except AppError Json
  limiter : RateLimiter
  executed : Bool
  guard : Option ConcurrentGuard

/-- Drop an optional guard against a registry (`_guard` going out of
scope at the end of the handler). -/
def dropOptGuard (g : Option ConcurrentGuard) (r : RateLimiter) :
    RateLimiter :=
  match g with
  | none => r
  | some g => g.drop r

/-- Steps 5–7 of the handler: invoke the adapter, validate the output,
build the response; the guard lives across all of it and is dropped on
every exit path. -/
def executePhase (oracle : SchemaOracle) (exec : ExecOracle)
    (req : GenerateRequest) (timeout : Option Nat)
    (g : Option ConcurrentGuard) (rl : RateLimiter) : HandlerResult :=
  match exec req.provider req.prompt req.schema req.model timeout with
  | Except.error e => ⟨Except.error e, dropOptGuard g rl, true, g⟩
  | Except.ok output =>
    match validate_output oracle req.schema output with
    | Except.error e => ⟨Except.error e, dropOptGuard g rl, true, g⟩
    | Except.ok () => ⟨Except.ok output, dropOptGuard g rl, true, g⟩

/-- The `generate` handler from `src/main.rs`: schema validation, adapter
lookup, the explicit-model/auto-model admission branch, adapter invocation,
output validation. `now1`/`now2` are the clock readings of the RPS and RPM
windows during the single `try_acquire` the handler performs. -/
def generate (oracle : SchemaOracle) (exec : ExecOracle) (st : AppState)
    (req : GenerateRequest) (now1 now2 : Nat) : HandlerResult :=
  match validate_structured_schema oracle req.schema with
  | Except.error e => ⟨Except.error e, st.rate_limiter, false, none⟩
  | Except.ok () =>
    match get_provider_with_executor req.provider with
    | none =>
      ⟨Except.error (AppError.ProviderNotFound req.provider),
        st.rate_limiter, false, none⟩
    | some _ =>
      match req.model with
      | some model =>
        let key := (req.provider, model)
        match st.model_settings key with
        | none =>
          ⟨Except.error (AppError.ModelNotFound req.provider req.model),
            st.rate_limiter, false, none⟩
        | some _ =>
          match st.rate_limiter.try_acquire req.provider model now1 now2 with
          | (Except.error (), rl) =>
            ⟨Except.error (AppError.RateLimited req.provider req.model),
              rl, false, none⟩
          | (Except.ok g, rl) =>
            let timeout := (st.model_settings key).bind (fun s => s.timeout_secs)
            executePhase oracle exec req timeout (some g) rl
      | none =>
        let providerCfg := st.provider_settings req.provider
        let supportsAuto :=
          (providerCfg.map (fun p => p.supports_auto_model)).getD true
        if !supportsAuto then
          ⟨Except.error (AppError.AutoModelNotSupported req.provider),
            st.rate_limiter, false, none⟩
        else
          let acquired : Option ConcurrentGuard × RateLimiter :=
            if providerCfg.isSome then
              match st.rate_limiter.try_acquire req.provider "_auto" now1 now2 with
              | (Except.ok g, rl) => (some g, rl)
              | (Except.error (), rl) => (none, rl)
            else (none, st.rate_limiter)
          let timeout := providerCfg.bind (fun p => p.timeout_secs)
          executePhase oracle exec req timeout acquired.1 acquired.2

/-! ## Configuration and startup (`src/config.rs`, `src/main.rs`) -/

/-- Per-model configuration entry (`ModelConfig` in `src/config.rs`). -/
structure ModelConfig where
  name : String
  rps : Option Nat
  rpm : Option Nat
  concurrent : Option Nat
  timeout_secs : Option Nat

/-- Per-provider configuration entry. The `name`, `supports_auto_model`
and `models` fields are from `src/config.rs`; the provider-level caps are
modelled from the spec's configuration grammar (§6). -/
structure ProviderConfig where
  name : String
  supports_auto_model : Bool
  rps : Option Nat
  rpm : Option Nat
  concurrent : Option Nat
  timeout_secs : Option Nat
  models : List ModelConfig

/-- `Config` from `src/config.rs` (the server block is irrelevant to the
handler and elided to its defaults' existence). -/
structure Config where
  providers : List ProviderConfig

/-- `Config::model_settings`: one entry per configured (provider, model),
later entries overwriting earlier ones, as `HashMap::insert` does. -/
def Config.model_settings (c : Config) :
    String × String → Option ModelSettings :=
  c.providers.foldl
    (fun acc p =>
      p.models.foldl
        (fun acc m =>
          fun k =>
            if k = (p.name, m.name) then
              some ⟨m.rps, m.rpm, m.concurrent, m.timeout_secs⟩
            else acc k)
        acc)
    (fun _ => none)

/-- Modelled from the spec: `Config::provider_settings` (referenced from
`src/main.rs` but absent from the copy of `src/config.rs`): one
`ProviderSettings` per provider entry, carrying `supports_auto_model` and
the provider-level caps (§3, §6). -/
def Config.provider_settings (c : Config) :
    String → Option ProviderSettings :=
  c.providers.foldl
    (fun acc p =>
      fun k =>
        if k = p.name then
          some ⟨p.supports_auto_model, p.rps, p.rpm, p.concurrent,
            p.timeout_secs⟩
        else acc k)
    (fun _ => none)

/-- The registry built by `main`: register every model's settings, then,
for every provider supporting auto-model, a `"_auto"` entry with the
provider-level caps. -/
def buildRegistry (c : Config) : RateLimiter :=
  let withModels :=
    c.providers.foldl
      (fun acc p =>
        p.models.foldl
          (fun acc m =>
            RateLimiter.register acc p.name m.name
              ⟨m.rps, m.rpm, m.concurrent, m.timeout_secs⟩)
          acc)
      RateLimiter.new
  c.providers.foldl
    (fun acc p =>
      if p.supports_auto_model then
        RateLimiter.register acc p.name "_auto"
          ⟨p.rps, p.rpm, p.concurrent, p.timeout_secs⟩
      else acc)
    withModels

/-- The application state `main` assembles from a configuration. -/
def buildState (c : Config) : AppState :=
  ⟨buildRegistry c, c.model_settings, c.provider_settings⟩

/-- The fallback configuration used when loading fails: empty provider
list (`Config { server: default, providers: vec![] }` in `main`). -/
def fallbackConfig : Config := ⟨[]⟩

/-! ## Traces of limiter operations -/

/-- One event against a single `ConcurrentLimiter`: a `try_acquire` call,
or the drop of a previously obtained guard. -/
inductive LimOp where
  | acq
  | rel
deriving Repr, DecidableEq

/-- One step of the concurrency protocol. The state is the counter value
paired with the number of outstanding (undropped) successful acquires; a
`rel` is only legal while a guard is outstanding — each guard is dropped
at most once, and only after a successful acquire. -/
def stepOp (max : Nat) (s : Nat × Nat) : LimOp → Option (Nat × Nat)
  | .acq =>
    let r := ConcurrentLimiter.try_acquire ⟨max, s.1⟩
    some (r.2.current, if r.1 then s.2 + 1 else s.2)
  | .rel =>
    if s.2 = 0 then none
    else some ((ConcurrentLimiter.release ⟨max, s.1⟩).current, s.2 - 1)

/-- Run a sequence of limiter events from a state; `none` when the
sequence violates the guard discipline. -/
def runOps (max : Nat) (s : Nat × Nat) : List LimOp → Option (Nat × Nat)
  | [] => some s
  | op :: ops =>
    match stepOp max s op with
    | none => none
    | some s' => runOps max s' ops

/-- Run a sequence of `SlidingWindow::try_acquire` calls at the given
clock readings, keeping only the window state. -/
def runWindow (w : SlidingWindow) : List Nat → SlidingWindow
  | [] => w
  | t :: ts => runWindow (w.try_acquire t).2 ts

/-! ## Small helpers for stating results -/

/-- Whether an `Except` is `ok`. -/
def resultIsOk {ε α : Type} : Except ε α → Bool
  | Except.ok _ => true
  | Except.error _ => false

/-- Whether an error is the rate-limit rejection. -/
def AppError.isRateLimited : AppError → Bool
  | .RateLimited _ _ => true
  | _ => false

/-- The per-model settings with every cap absent. -/
def unlimitedSettings : ModelSettings := ⟨none, none, none, none⟩

/-! ## Helper lemmas -/

theorem update_self (r : RateLimiter) (key : String × String)
    (lim : ModelLimiter) (h : r key = some lim) : r.update key lim = r := by
  funext k
  by_cases hk : k = key
  · subst hk; simp [RateLimiter.update, h]
  · simp [RateLimiter.update, hk]

/-- A failed concurrency acquire leaves the composite limiter unchanged. -/
theorem try_acquire_concurrent_failed (m : ModelLimiter)
    (h : m.try_acquire_concurrent.1 = false) :
    m.try_acquire_concurrent.2 = m := by
  obtain ⟨rps, rpm, conc⟩ := m
  cases conc with
  | none => rfl
  | some c =>
    simp only [ModelLimiter.try_acquire_concurrent,
      ConcurrentLimiter.try_acquire] at h ⊢
    by_cases hc : c.current ≥ c.max
    · simp [hc]
    · simp [hc] at h

/-- A successful bounded increment followed by the wrapping decrement
restores the counter. -/
theorem inc_release_current (c : ConcurrentLimiter)
    (hlt : c.current < c.max) (hmax : c.max < u32Mod) :
    c.try_acquire.2.release.current = c.current := by
  have hmod : u32Mod = 4294967296 := rfl
  simp only [ConcurrentLimiter.try_acquire, not_le.mpr hlt, ge_iff_le,
    ite_false, if_neg (not_le.mpr hlt), ConcurrentLimiter.release]
  have h1 : (c.current + 1) % u32Mod = c.current + 1 :=
    Nat.mod_eq_of_lt (by omega)
  rw [h1]
  have h2 : c.current + 1 + (u32Mod - 1) = c.current + u32Mod := by omega
  rw [h2, Nat.add_mod_right]
  exact Nat.mod_eq_of_lt (by omega)

/-- The rate check never touches the concurrency sub-limiter. -/
theorem try_acquire_rate_concurrent (m : ModelLimiter) (n1 n2 : Nat) :
    (m.try_acquire_rate n1 n2).2.concurrent = m.concurrent := by
  obtain ⟨rps, rpm, conc⟩ := m
  cases rps with
  | none =>
    simp only [ModelLimiter.try_acquire_rate]
    cases rpm <;> simp
  | some w =>
    simp only [ModelLimiter.try_acquire_rate]
    by_cases hw : (w.try_acquire n1).1
    · simp only [hw]
      cases rpm <;> simp
    · simp only [Bool.not_eq_true] at hw
      simp [hw]

/-- A successful concurrency acquire on a configured counter increments
it from a value below the cap. -/
theorem try_acquire_concurrent_ok (m : ModelLimiter)
    (h : m.try_acquire_concurrent.1 = true) :
    (m.concurrent = none ∧ m.try_acquire_concurrent.2 = m) ∨
    (∃ c, m.concurrent = some c ∧ c.current < c.max ∧
      m.try_acquire_concurrent.2 =
        { m with concurrent := some c.try_acquire.2 }) := by
  obtain ⟨rps, rpm, conc⟩ := m
  cases conc with
  | none => exact Or.inl ⟨rfl, rfl⟩
  | some c =>
    refine Or.inr ⟨c, rfl, ?_, ?_⟩
    · by_contra hc
      push_neg at hc
      simp [ModelLimiter.try_acquire_concurrent,
        ConcurrentLimiter.try_acquire, hc] at h
    · simp [ModelLimiter.try_acquire_concurrent]

/-! ## C10: a key registered with all caps absent always admits -/

/-- C10 — For a key registered with `ModelSettings` in which `rps`, `rpm`
and `concurrent` are all `None`, every `try_acquire` on that key succeeds
with a guard holding the entry, the registry state is unchanged, and
dropping the returned guard changes nothing. -/
theorem unlimited_settings_always_admit (r : RateLimiter)
    (p m : String) (now1 now2 : Nat) :
    (RateLimiter.register r p m unlimitedSettings).try_acquire p m now1 now2
      = (Except.ok ⟨some (p, m)⟩, RateLimiter.register r p m unlimitedSettings)
    ∧ ConcurrentGuard.drop ⟨some (p, m)⟩
        (RateLimiter.register r p m unlimitedSettings)
      = RateLimiter.register r p m unlimitedSettings := by
  have h : (RateLimiter.register r p m unlimitedSettings) (p, m)
      = some (ModelLimiter.new unlimitedSettings) := by
    simp [RateLimiter.register]
  constructor
  · have hred : (RateLimiter.register r p m unlimitedSettings).try_acquire
        p m now1 now2
        = (Except.ok ⟨some (p, m)⟩,
            (RateLimiter.register r p m unlimitedSettings).update (p, m)
              (ModelLimiter.new unlimitedSettings)) := by
      unfold RateLimiter.try_acquire
      simp only [h]
      rfl
    rw [hred, Prod.mk.injEq]
    exact ⟨rfl, update_self _ _ _ h⟩
  · have hred : ConcurrentGuard.drop ⟨some (p, m)⟩
        (RateLimiter.register r p m unlimitedSettings)
        = (RateLimiter.register r p m unlimitedSettings).update (p, m)
            (ModelLimiter.new unlimitedSettings) := by
      unfold ConcurrentGuard.drop
      show (match (RateLimiter.register r p m unlimitedSettings) (p, m) with
        | none => RateLimiter.register r p m unlimitedSettings
        | some lim =>
          (RateLimiter.register r p m unlimitedSettings).update (p, m)
            lim.releaseConcurrent) = _
      rw [h]
      rfl
    rw [hred]
    exact update_self _ _ _ h

/-! ## C3: the concurrency counter never exceeds its ceiling -/

/-- Inductive invariant of the concurrency trace: the counter equals the
number of outstanding guards and stays below the ceiling. -/
theorem runOps_invariant (max : Nat) (hmax : max < u32Mod)
    (ops : List LimOp) :
    ∀ s s' : Nat × Nat, s.1 = s.2 → s.1 ≤ max →
      runOps max s ops = some s' → s'.1 = s'.2 ∧ s'.1 ≤ max := by
  have hmod : u32Mod = 4294967296 := rfl
  induction ops with
  | nil =>
    intro s s' h1 h2 hrun
    simp only [runOps, Option.some.injEq] at hrun
    exact hrun ▸ ⟨h1, h2⟩
  | cons op ops ih =>
    intro s s' h1 h2 hrun
    obtain ⟨cur, held⟩ := s
    simp only at h1 h2
    cases op with
    | acq =>
      by_cases hc : cur ≥ max
      · have hstep : stepOp max (cur, held) .acq = some (cur, held) := by
          simp [stepOp, ConcurrentLimiter.try_acquire, hc]
        simp only [runOps, hstep] at hrun
        exact ih _ s' h1 h2 hrun
      · have hlt : cur < max := lt_of_not_ge hc
        have hinc : (cur + 1) % u32Mod = cur + 1 :=
          Nat.mod_eq_of_lt (by omega)
        have hstep : stepOp max (cur, held) .acq
            = some (cur + 1, held + 1) := by
          simp [stepOp, ConcurrentLimiter.try_acquire, hc, hinc]
        simp only [runOps, hstep] at hrun
        exact ih _ s' (by omega) (by omega) hrun
    | rel =>
      by_cases hz : held = 0
      · have hstep : stepOp max (cur, held) .rel = none := by
          simp [stepOp, hz]
        simp [runOps, hstep] at hrun
      · have hpos : 0 < cur := by omega
        have hdec : (cur + (u32Mod - 1)) % u32Mod = cur - 1 := by
          have he : cur + (u32Mod - 1) = (cur - 1) + u32Mod := by omega
          rw [he, Nat.add_mod_right]
          exact Nat.mod_eq_of_lt (by omega)
        have hstep : stepOp max (cur, held) .rel
            = some (cur - 1, held - 1) := by
          simp [stepOp, hz, ConcurrentLimiter.release, hdec]
        simp only [runOps, hstep] at hrun
        exact ih _ s' (by omega) (by omega) hrun

/-- C3 — under a configured concurrency ceiling `max`, for every legal
sequence of `try_acquire` calls and guard drops (each guard dropped at
most once, only after a successful acquire), the counter `current` never
exceeds `max` in any reachable state. -/
theorem concurrency_counter_bounded (max : Nat) (ops : List LimOp)
    (s : Nat × Nat) (hmax : max < u32Mod)
    (hrun : runOps max (0, 0) ops = some s) : s.1 ≤ max :=
  (runOps_invariant max hmax ops (0, 0) s rfl (Nat.zero_le _) hrun).2

/-- Witness for C3 at `max = 1` and a concrete acquire/drop trace. -/
theorem concurrency_counter_bounded_witness : (1 : Nat) ≤ 1 :=
  concurrency_counter_bounded 1 [.acq, .acq, .rel, .acq] (1, 1)
    (by decide) (by decide)

/-! ## C4: the sliding-window queue invariant -/

/-- Surviving the eviction loop of a sorted queue means being at least the
cutoff. -/
theorem mem_dropWhile_lt_ge (c : Nat) (q : List Nat)
    (hs : q.Pairwise (· ≤ ·)) :
    ∀ t ∈ q.dropWhile (fun t => decide (t < c)), c ≤ t := by
  induction q with
  | nil => simp [List.dropWhile]
  | cons a q ih =>
    intro t ht
    rw [List.dropWhile_cons] at ht
    by_cases ha : a < c
    · rw [if_pos (decide_eq_true ha)] at ht
      exact ih (List.Pairwise.of_cons hs) t ht
    · rw [if_neg (by simpa using ha)] at ht
      rcases List.mem_cons.mp ht with h | h
      · exact h ▸ not_lt.mp ha
      · exact le_trans (not_lt.mp ha) (List.rel_of_pairwise_cons hs h)

/-- One `SlidingWindow::try_acquire` step preserves sortedness, bounds all
surviving timestamps by the new reading, and establishes the window-width
lower bound; the window parameters are untouched. -/
theorem try_acquire_window_step (w : SlidingWindow) (n m : Nat)
    (hs : w.timestamps.Pairwise (· ≤ ·))
    (hub : ∀ t ∈ w.timestamps, t ≤ m) (hmn : m ≤ n) :
    (w.try_acquire n).2.window = w.window ∧
    (w.try_acquire n).2.max_requests = w.max_requests ∧
    (w.try_acquire n).2.timestamps.Pairwise (· ≤ ·) ∧
    (∀ t ∈ (w.try_acquire n).2.timestamps, t ≤ n ∧ n - w.window ≤ t) := by
  have hsub : List.Sublist (w.evict n) w.timestamps := List.dropWhile_sublist _
  have hps : (w.evict n).Pairwise (· ≤ ·) := hs.sublist hsub
  have hubs : ∀ t ∈ w.evict n, t ≤ n :=
    fun t ht => le_trans (hub t (hsub.mem ht)) hmn
  have hlbs : ∀ t ∈ w.evict n, n - w.window ≤ t :=
    mem_dropWhile_lt_ge _ _ hs
  unfold SlidingWindow.try_acquire
  by_cases hlen : (w.evict n).length < w.max_requests
  · rw [if_pos hlen]
    refine ⟨rfl, rfl, ?_, ?_⟩
    · show List.Pairwise (· ≤ ·) (w.evict n ++ [n])
      rw [List.pairwise_append]
      exact ⟨hps, List.pairwise_singleton _ _,
        fun x hx y hy => (List.mem_singleton.mp hy) ▸ hubs x hx⟩
    · show ∀ t ∈ w.evict n ++ [n], t ≤ n ∧ n - w.window ≤ t
      intro t ht
      rcases List.mem_append.mp ht with h | h
      · exact ⟨hubs t h, hlbs t h⟩
      · rw [List.mem_singleton.mp h]
        exact ⟨le_refl n, Nat.sub_le n w.window⟩
  · rw [if_neg hlen]
    exact ⟨rfl, rfl, hps, fun t ht => ⟨hubs t ht, hlbs t ht⟩⟩

/-- Inductive invariant over a run of `try_acquire` calls at non-decreasing
clock readings. -/
theorem runWindow_invariant (ts : List Nat) :
    ∀ (now : Nat) (w : SlidingWindow) (m : Nat),
      w.timestamps.Pairwise (· ≤ ·) → (∀ t ∈ w.timestamps, t ≤ m) →
      List.Chain' (· ≤ ·) (m :: ts ++ [now]) →
      (runWindow w (ts ++ [now])).window = w.window ∧
      (runWindow w (ts ++ [now])).timestamps.Pairwise (· ≤ ·) ∧
      (∀ t ∈ (runWindow w (ts ++ [now])).timestamps,
        t ≤ now ∧ now - w.window ≤ t) := by
  induction ts with
  | nil =>
    intro now w m hs hub hch
    have hmn : m ≤ now := by simpa using hch
    obtain ⟨hw, _, hp, hb⟩ := try_acquire_window_step w now m hs hub hmn
    refine ⟨hw, hp, ?_⟩
    intro t ht
    exact hb t ht
  | cons a ts ih =>
    intro now w m hs hub hch
    have hma : m ≤ a ∧ List.Chain' (· ≤ ·) (a :: ts ++ [now]) := by
      rw [List.cons_append] at hch
      exact List.chain'_cons.mp hch
    obtain ⟨hw, hmx, hp, hb⟩ := try_acquire_window_step w a m hs hub hma.1
    have hrec := ih now (w.try_acquire a).2 a hp
      (fun t ht => (hb t ht).1) hma.2
    refine ⟨by rw [show ((a :: ts) ++ [now]) = a :: (ts ++ [now]) from rfl,
      runWindow, hrec.1, hw], ?_, ?_⟩
    · rw [show ((a :: ts) ++ [now]) = a :: (ts ++ [now]) from rfl, runWindow]
      exact hrec.2.1
    · rw [show ((a :: ts) ++ [now]) = a :: (ts ++ [now]) from rfl, runWindow]
      intro t ht
      obtain ⟨h1, h2⟩ := hrec.2.2 t ht
      exact ⟨h1, hw ▸ h2⟩

/-- Counterexample to C4 as stated: with window width 1 and cap 2, after
acquisitions at times 0 and 1 the queue retains the timestamp 0, which is
not strictly greater than `now - window = 0`. -/
theorem window_boundary_timestamp_retained :
    0 ∈ (runWindow (SlidingWindow.new 1 2) [0, 1]).timestamps ∧
    ¬ ((1 : Nat) - 1 < 0) := by decide

/-- C4 (amended) — for every sliding window and every sequence of
`try_acquire` calls at non-decreasing clock readings, immediately after
the call at time `now` the timestamp queue is monotonically non-decreasing
and contains only timestamps `t` with `now - window ≤ t ≤ now` (closed
lower bound: a timestamp equal to `now - window` is retained). -/
theorem window_queue_sorted_and_bounded (win mx now : Nat) (ts : List Nat)
    (h : List.Chain' (· ≤ ·) (ts ++ [now])) :
    (runWindow (SlidingWindow.new win mx) (ts ++ [now])).timestamps.Pairwise
      (· ≤ ·) ∧
    ∀ t ∈ (runWindow (SlidingWindow.new win mx) (ts ++ [now])).timestamps,
      now - win ≤ t ∧ t ≤ now := by
  have hch : List.Chain' (· ≤ ·) (0 :: ts ++ [now]) :=
    List.chain'_cons'.mpr ⟨fun y _ => Nat.zero_le y, h⟩
  obtain ⟨_, hp, hb⟩ := runWindow_invariant ts now (SlidingWindow.new win mx)
    0 List.Pairwise.nil
    (by intro t ht; exact absurd ht (List.not_mem_nil t)) hch
  exact ⟨hp, fun t ht => ⟨(hb t ht).2, (hb t ht).1⟩⟩

/-- Witness for the amended C4 at window 1, cap 2, times `[0, 1]`. -/
theorem window_queue_sorted_and_bounded_witness :
    (runWindow (SlidingWindow.new 1 2) ([0] ++ [1])).timestamps.Pairwise
      (· ≤ ·) ∧
    ∀ t ∈ (runWindow (SlidingWindow.new 1 2) ([0] ++ [1])).timestamps,
      1 - 1 ≤ t ∧ t ≤ 1 :=
  window_queue_sorted_and_bounded 1 2 1 [0]
    (List.chain'_pair.mpr (by norm_num))

/-! ## C1: the acquisition algorithm of `RateLimiter::try_acquire` -/

/-- `releaseConcurrent` decrements the configured counter and nothing
else. -/
theorem releaseConcurrent_concurrent (m : ModelLimiter) :
    m.releaseConcurrent.concurrent = m.concurrent.map ConcurrentLimiter.release := by
  obtain ⟨rps, rpm, conc⟩ := m
  cases conc <;> rfl

/-- `releaseConcurrent` leaves both windows untouched. -/
theorem releaseConcurrent_windows (m : ModelLimiter) :
    m.releaseConcurrent.rps = m.rps ∧ m.releaseConcurrent.rpm = m.rpm := by
  obtain ⟨rps, rpm, conc⟩ := m
  cases conc <;> exact ⟨rfl, rfl⟩

/-- The concurrency check leaves both windows untouched. -/
theorem try_acquire_concurrent_windows (m : ModelLimiter) :
    m.try_acquire_concurrent.2.rps = m.rps ∧
    m.try_acquire_concurrent.2.rpm = m.rpm := by
  obtain ⟨rps, rpm, conc⟩ := m
  cases conc <;> exact ⟨rfl, rfl⟩

/-- One window attempt either admits and appends `now` after eviction, or
denies and only evicts. -/
theorem window_try_acquire_timestamps (w : SlidingWindow) (n : Nat) :
    ((w.try_acquire n).1 = true ∧
      (w.try_acquire n).2.timestamps = w.evict n ++ [n]) ∨
    ((w.try_acquire n).1 = false ∧
      (w.try_acquire n).2.timestamps = w.evict n) := by
  unfold SlidingWindow.try_acquire
  by_cases hlen : (w.evict n).length < w.max_requests
  · left
    rw [if_pos hlen]
    exact ⟨rfl, rfl⟩
  · right
    rw [if_neg hlen]
    exact ⟨rfl, rfl⟩

/-- C1 — `RateLimiter::try_acquire` follows the acquisition algorithm:
an unregistered key yields an empty guard whose release changes nothing;
for a registered key the concurrency acquire comes first and its failure
leaves the state untouched; then the rate (RPS-then-RPM) attempt runs, and
its failure rolls the concurrency counter back to its original value while
keeping the rate attempt's own queue mutations (an appended RPS timestamp
stays in place); full success yields a guard owning the entry's slot. -/
theorem try_acquire_follows_algorithm (r : RateLimiter) (p m : String)
    (n1 n2 : Nat) :
    (r (p, m) = none →
      r.try_acquire p m n1 n2 = (Except.ok ⟨none⟩, r) ∧
      ConcurrentGuard.drop ⟨none⟩ r = r) ∧
    (∀ lim, r (p, m) = some lim →
      (lim.try_acquire_concurrent.1 = false →
        r.try_acquire p m n1 n2 = (Except.error (), r)) ∧
      (lim.try_acquire_concurrent.1 = true →
        ((lim.try_acquire_concurrent.2.try_acquire_rate n1 n2).1 = true →
          r.try_acquire p m n1 n2 =
            (Except.ok ⟨some (p, m)⟩,
              r.update (p, m)
                (lim.try_acquire_concurrent.2.try_acquire_rate n1 n2).2)) ∧
        ((lim.try_acquire_concurrent.2.try_acquire_rate n1 n2).1 = false →
          r.try_acquire p m n1 n2 =
            (Except.error (),
              r.update (p, m)
                (lim.try_acquire_concurrent.2.try_acquire_rate
                  n1 n2).2.releaseConcurrent) ∧
          ((∀ c, lim.concurrent = some c → c.max < u32Mod) →
            (lim.try_acquire_concurrent.2.try_acquire_rate
                n1 n2).2.releaseConcurrent.concurrent.map
              ConcurrentLimiter.current
              = lim.concurrent.map ConcurrentLimiter.current)))) := by
  constructor
  · intro h
    constructor
    · unfold RateLimiter.try_acquire
      simp only [h]
    · rfl
  · intro lim h
    have hred : r.try_acquire p m n1 n2 =
        (let c := lim.try_acquire_concurrent
         if !c.1 then (Except.error (), r.update (p, m) c.2)
         else
           let rate := c.2.try_acquire_rate n1 n2
           if rate.1 then (Except.ok ⟨some (p, m)⟩, r.update (p, m) rate.2)
           else
             (Except.error (), r.update (p, m) rate.2.releaseConcurrent)) := by
      unfold RateLimiter.try_acquire
      simp only [h]
    refine ⟨?_, ?_⟩
    · intro hcf
      rw [hred]
      simp only [hcf, Bool.not_false, if_pos trivial, if_true]
      rw [try_acquire_concurrent_failed lim hcf, update_self r _ lim h]
    · intro hct
      refine ⟨?_, ?_⟩
      · intro hrt
        rw [hred]
        simp only [hct, Bool.not_true, hrt, if_true]
        rfl
      · intro hrf
        constructor
        · rw [hred]
          simp only [hct, Bool.not_true, hrf]
          rfl
        · intro hmax
          rw [releaseConcurrent_concurrent, try_acquire_rate_concurrent]
          rcases try_acquire_concurrent_ok lim hct with
            ⟨hnone, heq⟩ | ⟨c, hsome, hlt, heq⟩
          · rw [heq, hnone]
            rfl
          · rw [heq, hsome]
            show some c.try_acquire.2.release.current = some c.current
            exact congrArg some (inc_release_current c hlt (hmax c hsome))

/-- Witness for C1: the unregistered-key branch on the empty registry. -/
theorem try_acquire_follows_algorithm_witness :
    RateLimiter.new.try_acquire "p" "m" 0 0
      = (Except.ok ⟨none⟩, RateLimiter.new) ∧
    ConcurrentGuard.drop ⟨none⟩ RateLimiter.new = RateLimiter.new :=
  (try_acquire_follows_algorithm RateLimiter.new "p" "m" 0 0).1 rfl

/-! ## C2: what a denied `try_acquire` does to the entry's state -/

/-- A failed rate attempt leaves either an evicted-only RPS queue with the
RPM queue untouched (RPS denied), or an evicted-and-appended RPS queue
with an evicted RPM queue (RPM denied after RPS admitted). -/
theorem try_acquire_rate_failed_characterisation (m : ModelLimiter)
    (n1 n2 : Nat) (hf : (m.try_acquire_rate n1 n2).1 = false) :
    ((m.try_acquire_rate n1 n2).2.rps.map SlidingWindow.timestamps
        = m.rps.map (fun w => w.evict n1) ∧
      (m.try_acquire_rate n1 n2).2.rpm = m.rpm) ∨
    ((m.try_acquire_rate n1 n2).2.rps.map SlidingWindow.timestamps
        = m.rps.map (fun w => w.evict n1 ++ [n1]) ∧
      (m.try_acquire_rate n1 n2).2.rpm.map SlidingWindow.timestamps
        = m.rpm.map (fun w => w.evict n2)) := by
  obtain ⟨rps, rpm, conc⟩ := m
  cases rps with
  | none =>
    cases rpm with
    | none => simp [ModelLimiter.try_acquire_rate] at hf
    | some w2 =>
      rcases window_try_acquire_timestamps w2 n2 with ⟨h1, h2⟩ | ⟨h1, h2⟩
      · simp [ModelLimiter.try_acquire_rate, h1] at hf
      · right
        constructor
        · simp [ModelLimiter.try_acquire_rate]
        · simp [ModelLimiter.try_acquire_rate, h2]
  | some w =>
    rcases window_try_acquire_timestamps w n1 with ⟨h1, h2⟩ | ⟨h1, h2⟩
    · cases rpm with
      | none => simp [ModelLimiter.try_acquire_rate, h1] at hf
      | some w2 =>
        rcases window_try_acquire_timestamps w2 n2 with ⟨h3, h4⟩ | ⟨h3, h4⟩
        · simp [ModelLimiter.try_acquire_rate, h1, h3] at hf
        · right
          constructor
          · simp [ModelLimiter.try_acquire_rate, h1, h2]
          · simp [ModelLimiter.try_acquire_rate, h1, h4]
    · left
      constructor
      · simp [ModelLimiter.try_acquire_rate, h1, h2]
      · simp [ModelLimiter.try_acquire_rate, h1]

/-- The registered entry used by the C2 counterexample: RPS cap 1, RPM cap
0, no concurrency cap. -/
def c2Entry : ModelLimiter :=
  ⟨some ⟨oneSecond, 1, []⟩, some ⟨60 * oneSecond, 0, []⟩, none⟩

/-- A registry holding only the C2 counterexample entry. -/
def c2Registry : RateLimiter :=
  fun k => if k = ("p", "m") then some c2Entry else none

/-- Counterexample to C2 as stated: the call at time 0 is denied (RPM cap
0), yet the RPS queue after the call is `[0]`, not the pre-call `[]` — the
appended RPS timestamp is not rolled back. -/
theorem denied_acquire_mutates_rps_queue :
    resultIsOk (c2Registry.try_acquire "p" "m" 0 0).1 = false ∧
    ((c2Registry.try_acquire "p" "m" 0 0).2 ("p", "m")).map
      (fun lim => lim.rps.map SlidingWindow.timestamps)
      = some (some [0]) ∧
    (c2Registry ("p", "m")).map
      (fun lim => lim.rps.map SlidingWindow.timestamps)
      = some (some []) ∧
    (some (some [0]) : Option (Option (List Nat))) ≠ some (some []) := by
  refine ⟨rfl, rfl, rfl, by decide⟩

/-- C2 (amended) — a denied `try_acquire` on a registered key leaves the
concurrency counter `current` at its pre-call value, and the queues are
either both untouched (concurrency denial), or the RPS queue merely
evicted with the RPM queue untouched (RPS denial), or the RPS queue
evicted-and-appended with the RPM queue evicted (RPM denial): queues are
not restored bitwise. -/
theorem denied_acquire_state_characterisation (r : RateLimiter)
    (p m : String) (n1 n2 : Nat) (lim : ModelLimiter)
    (h : r (p, m) = some lim)
    (hmax : ∀ c, lim.concurrent = some c → c.max < u32Mod)
    (hdeny : resultIsOk (r.try_acquire p m n1 n2).1 = false) :
    ∃ lim', (r.try_acquire p m n1 n2).2 (p, m) = some lim' ∧
      lim'.concurrent.map ConcurrentLimiter.current
        = lim.concurrent.map ConcurrentLimiter.current ∧
      ((lim'.rps = lim.rps ∧ lim'.rpm = lim.rpm) ∨
        (lim'.rps.map SlidingWindow.timestamps
            = lim.rps.map (fun w => w.evict n1) ∧
          lim'.rpm = lim.rpm) ∨
        (lim'.rps.map SlidingWindow.timestamps
            = lim.rps.map (fun w => w.evict n1 ++ [n1]) ∧
          lim'.rpm.map SlidingWindow.timestamps
            = lim.rpm.map (fun w => w.evict n2))) := by
  have halg := (try_acquire_follows_algorithm r p m n1 n2).2 lim h
  by_cases hc : lim.try_acquire_concurrent.1 = true
  · by_cases hr : (lim.try_acquire_concurrent.2.try_acquire_rate n1 n2).1 = true
    · exfalso
      rw [((halg.2 hc).1 hr)] at hdeny
      simp [resultIsOk] at hdeny
    · have hrf : (lim.try_acquire_concurrent.2.try_acquire_rate n1 n2).1
          = false := by
        exact Bool.not_eq_true _ ▸ (by simpa using hr)
      obtain ⟨heq, hcur⟩ := (halg.2 hc).2 hrf
      refine ⟨(lim.try_acquire_concurrent.2.try_acquire_rate
        n1 n2).2.releaseConcurrent, ?_, hcur hmax, ?_⟩
      · rw [heq]
        simp [RateLimiter.update]
      · have hw := try_acquire_concurrent_windows lim
        have hrw := releaseConcurrent_windows
          (lim.try_acquire_concurrent.2.try_acquire_rate n1 n2).2
        rcases try_acquire_rate_failed_characterisation
          lim.try_acquire_concurrent.2 n1 n2 hrf with ⟨ha, hb⟩ | ⟨ha, hb⟩
        · right; left
          rw [hw.1] at ha
          rw [hw.2] at hb
          exact ⟨by rw [hrw.1, ha], by rw [hrw.2, hb]⟩
        · right; right
          rw [hw.1] at ha
          rw [hw.2] at hb
          exact ⟨by rw [hrw.1, ha], by rw [hrw.2, hb]⟩
  · have hcf : lim.try_acquire_concurrent.1 = false := by
      simpa using hc
    have heq := halg.1 hcf
    refine ⟨lim, ?_, rfl, Or.inl ⟨rfl, rfl⟩⟩
    rw [heq]
    exact h

/-- Witness for the amended C2 at the concrete denied state of the
counterexample registry. -/
theorem denied_acquire_state_characterisation_witness :
    ∃ lim', (c2Registry.try_acquire "p" "m" 0 0).2 ("p", "m") = some lim' ∧
      lim'.concurrent.map ConcurrentLimiter.current
        = c2Entry.concurrent.map ConcurrentLimiter.current ∧
      ((lim'.rps = c2Entry.rps ∧ lim'.rpm = c2Entry.rpm) ∨
        (lim'.rps.map SlidingWindow.timestamps
            = c2Entry.rps.map (fun w => w.evict 0) ∧
          lim'.rpm = c2Entry.rpm) ∨
        (lim'.rps.map SlidingWindow.timestamps
            = c2Entry.rps.map (fun w => w.evict 0 ++ [0]) ∧
          lim'.rpm.map SlidingWindow.timestamps
            = c2Entry.rpm.map (fun w => w.evict 0))) :=
  denied_acquire_state_characterisation c2Registry "p" "m" 0 0 c2Entry rfl
    (by intro c hc; cases hc) rfl

/-! ## C8: characterisation of `validate_structured_schema` -/

/-- C8 — `validate_structured_schema` succeeds iff the schema root is a
JSON object whose `type` key holds the string `"object"`, whose
`properties` key holds a JSON object, and which compiles as a JSON Schema;
every failure is an `InvalidSchema` error. -/
theorem validate_structured_schema_characterisation (oracle : SchemaOracle)
    (schema : Json) :
    (resultIsOk (validate_structured_schema oracle schema) = true ↔
      ∃ fields, schema = Json.obj fields ∧
        jlookup fields "type" = some (Json.str "object") ∧
        (∃ props, jlookup fields "properties" = some (Json.obj props)) ∧
        oracle.compiles schema = true) ∧
    (validate_structured_schema oracle schema = Except.ok () ∨
      ∃ msg, validate_structured_schema oracle schema
        = Except.error (AppError.InvalidSchema msg)) := by
  constructor
  · constructor
    · intro h
      unfold validate_structured_schema at h
      split at h
      case _ fields =>
        split at h
        case _ heq =>
          split at h
          case _ props heq2 =>
            split at h
            case _ hcomp => exact ⟨fields, rfl, heq, ⟨props, heq2⟩, hcomp⟩
            case _ => simp [resultIsOk] at h
          case _ => simp [resultIsOk] at h
          case _ => simp [resultIsOk] at h
        case _ => simp [resultIsOk] at h
        case _ => simp [resultIsOk] at h
      case _ => simp [resultIsOk] at h
    · rintro ⟨fields, rfl, h1, ⟨props, h2⟩, h3⟩
      unfold validate_structured_schema
      simp only [h1, h2, h3, if_true]
      rfl
  · unfold validate_structured_schema
    split
    case _ fields =>
      split
      case _ =>
        split
        case _ =>
          split
          case _ => exact Or.inl rfl
          case _ => exact Or.inr ⟨_, rfl⟩
        case _ => exact Or.inr ⟨_, rfl⟩
        case _ => exact Or.inr ⟨_, rfl⟩
      case _ => exact Or.inr ⟨_, rfl⟩
      case _ => exact Or.inr ⟨_, rfl⟩
    case _ => exact Or.inr ⟨_, rfl⟩

/-- A schema accepted by the validator, used by several witnesses. -/
def goodSchema : Json :=
  Json.obj [("type", Json.str "object"), ("properties", Json.obj [])]

/-- A schema oracle whose compilation and validation always succeed. -/
def permissiveOracle : SchemaOracle :=
  ⟨fun _ => true, fun _ _ => true, fun _ _ => []⟩

/-- Witness for C8: the characterisation applied to a concrete schema. -/
theorem validate_structured_schema_characterisation_witness :
    resultIsOk (validate_structured_schema permissiveOracle goodSchema)
      = true :=
  (validate_structured_schema_characterisation permissiveOracle
    goodSchema).1.mpr ⟨_, rfl, rfl, ⟨[], rfl⟩, rfl⟩

/-! ## C9: idempotence of the fenced-code extraction -/

/-- `findSub` returns the first occurrence: no earlier index matches. -/
theorem findSub_some_min (pat : List Char) :
    ∀ (l : List Char) (e : Nat), findSub pat l = some e →
      ∀ i < e, pat.isPrefixOf (l.drop i) = false := by
  intro l
  induction l with
  | nil =>
    intro e h i hi
    unfold findSub at h
    by_cases hp : pat.isEmpty
    · rw [if_pos hp] at h
      injection h with he
      omega
    · rw [if_neg hp] at h
      cases h
  | cons c rest ih =>
    intro e h i hi
    unfold findSub at h
    by_cases hp : pat.isPrefixOf (c :: rest) = true
    · rw [if_pos hp] at h
      injection h with he
      omega
    · rw [if_neg hp] at h
      cases hf : findSub pat rest with
      | none => rw [hf] at h; cases h
      | some f =>
        rw [hf] at h
        simp only [Option.map_some', Option.some.injEq] at h
        cases i with
        | zero =>
          exact Bool.eq_false_iff.mpr hp
        | succ j =>
          show pat.isPrefixOf (rest.drop j) = false
          exact ih f hf j (by omega)

/-- `findSub` indeed finds an occurrence. -/
theorem findSub_some_prefix (pat : List Char) :
    ∀ (l : List Char) (e : Nat), findSub pat l = some e →
      pat.isPrefixOf (l.drop e) = true := by
  intro l
  induction l with
  | nil =>
    intro e h
    unfold findSub at h
    by_cases hp : pat.isEmpty
    · rw [if_pos hp] at h
      injection h with he
      rw [← he, List.drop_zero]
      rw [List.isEmpty_iff.mp hp]
      rfl
    · rw [if_neg hp] at h
      cases h
  | cons c rest ih =>
    intro e h
    unfold findSub at h
    by_cases hp : pat.isPrefixOf (c :: rest) = true
    · rw [if_pos hp] at h
      injection h with he
      rw [← he, List.drop_zero]
      exact hp
    · rw [if_neg hp] at h
      cases hf : findSub pat rest with
      | none => rw [hf] at h; cases h
      | some f =>
        rw [hf] at h
        simp only [Option.map_some', Option.some.injEq] at h
        rw [← h]
        show pat.isPrefixOf (rest.drop f) = true
        exact ih f hf

/-- A pattern with no occurrence is not found. -/
theorem findSub_eq_none (pat l : List Char)
    (h : ∀ i, pat.isPrefixOf (l.drop i) = false) : findSub pat l = none := by
  cases hf : findSub pat l with
  | none => rfl
  | some e =>
    have := findSub_some_prefix pat l e hf
    rw [h e] at this
    cases this

/-- Before the first occurrence of a non-empty pattern there is no
occurrence at all. -/
theorem noOcc_before_first (pat l : List Char) (e : Nat) (hne : pat ≠ [])
    (h : findSub pat l = some e) :
    ∀ i, pat.isPrefixOf ((l.take e).drop i) = false := by
  intro i
  by_contra hcon
  have hpre : pat <+: (l.take e).drop i :=
    List.isPrefixOf_iff_prefix.mp (by simpa using hcon)
  rw [List.drop_take e i l] at hpre
  have hp2 : pat <+: l.drop i := hpre.trans (List.take_prefix _ _)
  have hlen : pat.length ≤ e - i :=
    le_trans hpre.length_le (List.length_take_le _ _)
  have hi : i < e := by
    have hl : 0 < pat.length := List.length_pos.mpr hne
    omega
  have hmin := findSub_some_min pat l e h i hi
  rw [List.isPrefixOf_iff_prefix.mpr hp2] at hmin
  cases hmin

/-- No occurrence in a list means no occurrence in any infix of it. -/
theorem noOcc_of_infix (pat s r : List Char) (hinf : r <:+: s)
    (h : ∀ i, pat.isPrefixOf (s.drop i) = false) :
    ∀ i, pat.isPrefixOf (r.drop i) = false := by
  intro i
  by_contra hcon
  have hpre : pat <+: r.drop i :=
    List.isPrefixOf_iff_prefix.mp (by simpa using hcon)
  have hinf2 : pat <:+: s :=
    hpre.isInfix.trans ((List.drop_suffix i r).isInfix.trans hinf)
  obtain ⟨t, hpt, hts⟩ := List.infix_iff_prefix_suffix.mp hinf2
  have hteq : t = s.drop (s.length - t.length) :=
    List.suffix_iff_eq_drop.mp hts
  have hp2 : pat <+: s.drop (s.length - t.length) := hteq ▸ hpt
  have := List.isPrefixOf_iff_prefix.mpr hp2
  rw [h _] at this
  cases this

/-- `trimChars` yields an infix of its argument. -/
theorem trimChars_within (s : List Char) : trimChars s <:+: s :=
  (List.rdropWhile_prefix _ _).isInfix.trans
    (List.dropWhile_suffix _).isInfix

/-- Every successful extraction is the trimmed text before the first
closing fence of some suffix of the input. -/
theorem extract_json_shape (text r : List Char)
    (h : extract_json text = some r) :
    ∃ l e, findSub ("```".toList) l = some e ∧
      r = trimChars (l.take e) := by
  unfold extract_json at h
  cases h1 : findSub ("```json".toList) text with
  | some start =>
    rw [h1] at h
    dsimp only at h
    cases h2 : findSub ("```".toList) (text.drop (start + 7)) with
    | some e =>
      rw [h2] at h
      simp only [Option.some.injEq] at h
      exact ⟨text.drop (start + 7), e, h2, h.symm⟩
    | none =>
      rw [h2] at h
      dsimp only at h
      cases h3 : findSub ("```".toList) text with
      | some start2 =>
        rw [h3] at h
        dsimp only at h
        cases h4 : findSub ("\n".toList) (text.drop (start2 + 3)) with
        | some i =>
          rw [h4] at h
          dsimp only at h
          cases h5 : findSub ("```".toList)
              (text.drop (start2 + 3 + i + 1)) with
          | some e =>
            rw [h5] at h
            simp only [Option.some.injEq] at h
            exact ⟨text.drop (start2 + 3 + i + 1), e, h5, h.symm⟩
          | none => rw [h5] at h; cases h
        | none =>
          rw [h4] at h
          dsimp only at h
          cases h5 : findSub ("```".toList) (text.drop (start2 + 3)) with
          | some e =>
            rw [h5] at h
            simp only [Option.some.injEq] at h
            exact ⟨text.drop (start2 + 3), e, h5, h.symm⟩
          | none => rw [h5] at h; cases h
      | none => rw [h3] at h; cases h
  | none =>
    rw [h1] at h
    dsimp only at h
    cases h3 : findSub ("```".toList) text with
    | some start2 =>
      rw [h3] at h
      dsimp only at h
      cases h4 : findSub ("\n".toList) (text.drop (start2 + 3)) with
      | some i =>
        rw [h4] at h
        dsimp only at h
        cases h5 : findSub ("```".toList)
            (text.drop (start2 + 3 + i + 1)) with
        | some e =>
          rw [h5] at h
          simp only [Option.some.injEq] at h
          exact ⟨text.drop (start2 + 3 + i + 1), e, h5, h.symm⟩
        | none => rw [h5] at h; cases h
      | none =>
        rw [h4] at h
        dsimp only at h
        cases h5 : findSub ("```".toList) (text.drop (start2 + 3)) with
        | some e =>
          rw [h5] at h
          simp only [Option.some.injEq] at h
          exact ⟨text.drop (start2 + 3), e, h5, h.symm⟩
        | none => rw [h5] at h; cases h
    | none => rw [h3] at h; cases h

/-- An extracted block contains no closing fence. -/
theorem extract_json_result_no_fence (text r : List Char)
    (h : extract_json text = some r) :
    ∀ i, ("```".toList).isPrefixOf (r.drop i) = false := by
  obtain ⟨l, e, hf, hr⟩ := extract_json_shape text r h
  have h1 : ∀ i, ("```".toList).isPrefixOf ((l.take e).drop i) = false :=
    noOcc_before_first _ l e (by decide) hf
  exact hr ▸ noOcc_of_infix _ _ _ (trimChars_within _) h1

/-- Extraction finds nothing inside a previously extracted block. -/
theorem extract_json_of_extract (text r : List Char)
    (h : extract_json text = some r) : extract_json r = none := by
  have hnof := extract_json_result_no_fence text r h
  have hnoj : ∀ i, ("```json".toList).isPrefixOf (r.drop i) = false := by
    intro i
    by_contra hcon
    have hpre : ("```json".toList) <+: r.drop i :=
      List.isPrefixOf_iff_prefix.mp (by simpa using hcon)
    have hsub : ("```".toList) <+: ("```json".toList) :=
      List.isPrefixOf_iff_prefix.mp (by decide)
    have := List.isPrefixOf_iff_prefix.mpr (hsub.trans hpre)
    rw [hnof i] at this
    cases this
  unfold extract_json
  rw [findSub_eq_none _ _ hnoj, findSub_eq_none _ _ hnof]

/-- The extraction step applied to provider stdout is idempotent on every
string, a fortiori on serialized JSON objects. -/
theorem extractStep_idempotent (text : List Char) :
    extractStep (extractStep text) = extractStep text := by
  cases h : extract_json text with
  | none =>
    have hst : extractStep text = text := by
      unfold extractStep
      rw [h]
      rfl
    rw [hst]
    exact hst
  | some r =>
    have hst : extractStep text = r := by
      unfold extractStep
      rw [h]
      rfl
    have hr : extractStep r = r := by
      unfold extractStep
      rw [extract_json_of_extract text r h]
      rfl
    rw [hst, hr]

/-- C9 — the gemini adapter's fenced-code extraction step (extract a
fenced block, falling back to the whole input) is idempotent on every
string that consists solely of a serialized JSON object. -/
theorem extraction_idempotent_on_serialized_object (j : Json)
    (_hj : j.isObj = true) :
    extractStep (extractStep (serializeJson j))
      = extractStep (serializeJson j) :=
  extractStep_idempotent (serializeJson j)

/-- Witness for C9 at the serialized empty object. -/
theorem extraction_idempotent_on_serialized_object_witness :
    extractStep (extractStep (serializeJson (Json.obj [])))
      = extractStep (serializeJson (Json.obj [])) :=
  extraction_idempotent_on_serialized_object (Json.obj []) rfl

/-! ## The handler claims (C5, C6, C7) -/

/-- Every error of `validate_output` is an output-validation or
invalid-schema error. -/
theorem validate_output_error_shape (oracle : SchemaOracle)
    (s o : Json) (e : AppError) (h : validate_output oracle s o = Except.error e) :
    (∃ errs outp, e = AppError.OutputValidation errs outp) ∨
    (∃ msg, e = AppError.InvalidSchema msg) := by
  unfold validate_output at h
  split at h
  · split at h
    · cases h
    · injection h with he
      exact Or.inl ⟨_, _, he.symm⟩
  · injection h with he
    exact Or.inr ⟨_, he.symm⟩

/-- What the execute phase guarantees: the adapter is invoked, the guard
passed in is the guard held, a success response implies output validation
succeeded, and every error response either came from the adapter itself or
is an output-validation / invalid-schema error. -/
theorem executePhase_spec (oracle : SchemaOracle) (exec : ExecOracle)
    (req : GenerateRequest) (timeout : Option Nat)
    (g : Option ConcurrentGuard) (rl : RateLimiter) :
    (executePhase oracle exec req timeout g rl).executed = true ∧
    (executePhase oracle exec req timeout g rl).guard = g ∧
    (∀ out, (executePhase oracle exec req timeout g rl).response
        = Except.ok out →
      validate_output oracle req.schema out = Except.ok ()) ∧
    (∀ e, (executePhase oracle exec req timeout g rl).response
        = Except.error e →
      exec req.provider req.prompt req.schema req.model timeout
        = Except.error e ∨
      (∃ errs outp, e = AppError.OutputValidation errs outp) ∨
      (∃ msg, e = AppError.InvalidSchema msg)) := by
  unfold executePhase
  split
  case _ e heq =>
    refine ⟨rfl, rfl, fun out hout => Except.noConfusion hout, ?_⟩
    intro e' he'
    injection he' with hee
    exact Or.inl (hee ▸ heq)
  case _ output heq =>
    split
    case _ e2 heq2 =>
      refine ⟨rfl, rfl, fun out hout => Except.noConfusion hout, ?_⟩
      intro e' he'
      injection he' with hee
      exact Or.inr (validate_output_error_shape oracle req.schema output e'
        (hee ▸ heq2))
    case _ heq2 =>
      refine ⟨rfl, rfl, ?_, fun e he => Except.noConfusion he⟩
      intro out hout
      injection hout with ho
      rw [← ho]
      exact heq2

/-- Counterexample witness state for the auto-model denial: the `_auto`
key of provider `claude` carries a concurrency cap of 0, so its
`try_acquire` always denies. -/
def c5Entry : ModelLimiter := ⟨none, none, some ⟨0, 0⟩⟩

/-- Registry holding only the always-denying `("claude", "_auto")`
entry. -/
def c5Registry : RateLimiter :=
  fun k => if k = ("claude", "_auto") then some c5Entry else none

/-- Application state for the auto-model denial scenario. -/
def c5State : AppState :=
  ⟨c5Registry, fun _ => none,
    fun p => if p = "claude" then some ⟨true, none, none, some 0, none⟩
      else none⟩

/-- An adapter oracle that always succeeds with `null` output. -/
def execOkNull : ExecOracle := fun _ _ _ _ _ => Except.ok Json.null

/-- Counterexample to C5 as stated: in the auto-model branch the
admission `try_acquire` for the request's key (`claude`, `_auto`) is
denied, and the adapter's execute is nevertheless invoked. -/
theorem adapter_invoked_despite_denied_admission :
    resultIsOk (c5State.rate_limiter.try_acquire "claude" "_auto" 0 0).1
      = false ∧
    (generate permissiveOracle execOkNull c5State
      ⟨"claude", none, "hi", goodSchema⟩ 0 0).executed = true :=
  ⟨rfl, rfl⟩

/-- C5 (amended) — the adapter's execute is never invoked unless schema
validation has succeeded, and, for explicit-model requests, unless the
admission `try_acquire` has succeeded (in the auto-model branch a denied
`try_acquire` is tolerated); a success response is never returned unless
output validation has succeeded. -/
theorem handler_ordering (oracle : SchemaOracle) (exec : ExecOracle)
    (st : AppState) (req : GenerateRequest) (n1 n2 : Nat) :
    ((generate oracle exec st req n1 n2).executed = true →
      resultIsOk (validate_structured_schema oracle req.schema) = true) ∧
    (∀ model, req.model = some model →
      (generate oracle exec st req n1 n2).executed = true →
      resultIsOk (st.rate_limiter.try_acquire req.provider model n1 n2).1
        = true) ∧
    (∀ out, (generate oracle exec st req n1 n2).response = Except.ok out →
      validate_output oracle req.schema out = Except.ok ()) := by
  cases hval : validate_structured_schema oracle req.schema with
  | error e =>
    unfold generate
    rw [hval]
    exact ⟨fun h => Bool.noConfusion h, fun model hm h => Bool.noConfusion h,
      fun out hout => Except.noConfusion hout⟩
  | ok u =>
    cases u
    cases hpv : get_provider_with_executor req.provider with
    | none =>
      unfold generate
      rw [hval, hpv]
      exact ⟨fun h => Bool.noConfusion h,
        fun model hm h => Bool.noConfusion h,
        fun out hout => Except.noConfusion hout⟩
    | some pv =>
      cases hm : req.model with
      | some model =>
        cases hms : st.model_settings (req.provider, model) with
        | none =>
          unfold generate
          rw [hval, hpv, hm]
          try dsimp only
          rw [hms]
          exact ⟨fun h => Bool.noConfusion h,
            fun model' hm' h => Bool.noConfusion h,
            fun out hout => Except.noConfusion hout⟩
        | some s =>
          cases htry : st.rate_limiter.try_acquire req.provider model n1 n2
            with
          | mk res rl =>
            cases res with
            | error u2 =>
              cases u2
              unfold generate
              rw [hval, hpv, hm]
              try dsimp only
              rw [hms]
              try dsimp only
              rw [htry]
              exact ⟨fun h => Bool.noConfusion h,
                fun model' hm' h => Bool.noConfusion h,
                fun out hout => Except.noConfusion hout⟩
            | ok g =>
              unfold generate
              rw [hval, hpv, hm]
              try dsimp only
              rw [hms]
              try dsimp only
              rw [htry]
              try dsimp only
              refine ⟨fun _ => rfl, ?_, ?_⟩
              · intro model' hm' _
                injection hm' with hmm
                rw [← hmm, htry]
                rfl
              · exact (executePhase_spec oracle exec req _ _ _).2.2.1
      | none =>
        cases hcfg : st.provider_settings req.provider with
        | none =>
          unfold generate
          rw [hval, hpv, hm]
          try dsimp only
          rw [hcfg]
          try dsimp only
          refine ⟨fun _ => rfl, ?_, ?_⟩
          · intro model' hm' _
            exact Option.noConfusion hm'
          · exact (executePhase_spec oracle exec req _ _ _).2.2.1
        | some cfg =>
          cases hauto : cfg.supports_auto_model with
          | false =>
            unfold generate
            rw [hval, hpv, hm]
            try dsimp only
            rw [hcfg]
            try dsimp only
            simp only [Option.map_some', Option.getD_some, hauto,
              Bool.not_false, if_true]
            exact ⟨fun h => Bool.noConfusion h,
              fun model' hm' h => Bool.noConfusion h,
              fun out hout => Except.noConfusion hout⟩
          | true =>
            cases htry : st.rate_limiter.try_acquire req.provider "_auto"
              n1 n2 with
            | mk res rl =>
              unfold generate
              rw [hval, hpv, hm]
              try dsimp only
              rw [hcfg]
              try dsimp only
              simp only [Option.map_some', Option.getD_some, hauto,
                Bool.not_true, Bool.false_eq_true, if_false,
                Option.isSome_some, if_true]
              rw [htry]
              cases res with
              | error u2 =>
                cases u2
                try dsimp only
                refine ⟨fun _ => rfl, ?_, ?_⟩
                · intro model' hm' _
                  exact Option.noConfusion hm'
                · exact (executePhase_spec oracle exec req _ _ _).2.2.1
              | ok g =>
                try dsimp only
                refine ⟨fun _ => rfl, ?_, ?_⟩
                · intro model' hm' _
                  exact Option.noConfusion hm'
                · exact (executePhase_spec oracle exec req _ _ _).2.2.1

/-- Witness for the amended C5: a concrete successful auto-model request
whose output was validated. -/
theorem handler_ordering_witness :
    validate_output permissiveOracle goodSchema Json.null = Except.ok () :=
  (handler_ordering permissiveOracle execOkNull (buildState fallbackConfig)
    ⟨"claude", none, "hi", goodSchema⟩ 0 0).2.2 Json.null rfl

/-- C6 — in the auto-model branch with a present provider entry that
supports auto-model, a denied provider-level `try_acquire` does not fail
the request: the adapter is invoked without a guard, and no rate-limited
(429) response is produced on this path (adapter errors are never
`RateLimited`, per the three adapter implementations). -/
theorem auto_model_denial_tolerated (oracle : SchemaOracle)
    (exec : ExecOracle) (st : AppState) (req : GenerateRequest)
    (n1 n2 : Nat) (hm : req.model = none)
    (hprov : (get_provider_with_executor req.provider).isSome = true)
    (hschema : validate_structured_schema oracle req.schema = Except.ok ())
    (cfg : ProviderSettings)
    (hcfg : st.provider_settings req.provider = some cfg)
    (hauto : cfg.supports_auto_model = true)
    (hdeny : resultIsOk
      (st.rate_limiter.try_acquire req.provider "_auto" n1 n2).1 = false)
    (hexec : ∀ p pr sc mo t e, exec p pr sc mo t = Except.error e →
      e.isRateLimited = false) :
    (generate oracle exec st req n1 n2).executed = true ∧
    (generate oracle exec st req n1 n2).guard = none ∧
    ∀ e, (generate oracle exec st req n1 n2).response = Except.error e →
      e.isRateLimited = false := by
  obtain ⟨pv, hpv⟩ := Option.isSome_iff_exists.mp hprov
  unfold generate
  rw [hschema, hpv, hm]
  try dsimp only
  rw [hcfg]
  try dsimp only
  simp only [Option.map_some', Option.getD_some, hauto, Bool.not_true,
    Bool.false_eq_true, if_false, Option.isSome_some, if_true]
  cases htry : st.rate_limiter.try_acquire req.provider "_auto" n1 n2 with
  | mk res rl =>
    cases res with
    | ok g =>
      rw [htry] at hdeny
      exact Bool.noConfusion hdeny
    | error u =>
      cases u
      try dsimp only
      obtain ⟨hex, hgu, _, herr⟩ :=
        executePhase_spec oracle exec req (cfg.timeout_secs) none rl
      refine ⟨hex, hgu, ?_⟩
      intro e he
      rcases herr e he with h | ⟨errs, outp, he'⟩ | ⟨msg, he'⟩
      · exact hexec _ _ _ _ _ _ h
      · rw [he']; rfl
      · rw [he']; rfl

/-- Witness for C6 at the concrete always-denying `_auto` entry. -/
theorem auto_model_denial_tolerated_witness :
    (generate permissiveOracle execOkNull c5State
      ⟨"claude", none, "hi", goodSchema⟩ 0 0).executed = true :=
  (auto_model_denial_tolerated permissiveOracle execOkNull c5State
    ⟨"claude", none, "hi", goodSchema⟩ 0 0 rfl rfl rfl
    ⟨true, none, none, some 0, none⟩ rfl rfl rfl
    (fun _ _ _ _ _ _ h => Except.noConfusion h)).1

/-- Counterexample to C7 as stated: with the empty fallback configuration,
an auto-model request for the built-in provider `claude` is not rejected
at all — the adapter runs and the request succeeds. -/
theorem empty_config_auto_request_not_rejected :
    (generate permissiveOracle execOkNull (buildState fallbackConfig)
      ⟨"claude", none, "hi", goodSchema⟩ 0 0).response
      = Except.ok Json.null ∧
    (generate permissiveOracle execOkNull (buildState fallbackConfig)
      ⟨"claude", none, "hi", goodSchema⟩ 0 0).executed = true :=
  ⟨rfl, rfl⟩

/-- C7 (amended) — with a missing or malformed configuration the server
starts with an empty provider list; in that state a schema-valid request
naming a provider outside the built-in adapter set is rejected with
ProviderNotFound (400) for both explicit-model and auto-model requests,
while a built-in provider name yields ModelNotFound (400) for an explicit
model and proceeds unguarded to the adapter for an auto-model request. -/
theorem empty_config_provider_rejection (oracle : SchemaOracle)
    (exec : ExecOracle) (req : GenerateRequest) (n1 n2 : Nat)
    (hschema : validate_structured_schema oracle req.schema
      = Except.ok ()) :
    (get_provider_with_executor req.provider = none →
      (generate oracle exec (buildState fallbackConfig) req n1 n2).response
        = Except.error (AppError.ProviderNotFound req.provider) ∧
      (AppError.ProviderNotFound req.provider).status = 400) ∧
    (∀ m, req.model = some m →
      (get_provider_with_executor req.provider).isSome = true →
      (generate oracle exec (buildState fallbackConfig) req n1 n2).response
        = Except.error (AppError.ModelNotFound req.provider (some m)) ∧
      (AppError.ModelNotFound req.provider (some m)).status = 400) ∧
    (req.model = none →
      (get_provider_with_executor req.provider).isSome = true →
      (generate oracle exec (buildState fallbackConfig) req n1 n2).executed
        = true ∧
      (generate oracle exec (buildState fallbackConfig) req n1 n2).guard
        = none) := by
  refine ⟨?_, ?_, ?_⟩
  · intro hnone
    unfold generate
    rw [hschema, hnone]
    exact ⟨rfl, rfl⟩
  · intro m hm hsome
    obtain ⟨pv, hpv⟩ := Option.isSome_iff_exists.mp hsome
    unfold generate
    rw [hschema, hpv, hm]
    exact ⟨rfl, rfl⟩
  · intro hm hsome
    obtain ⟨pv, hpv⟩ := Option.isSome_iff_exists.mp hsome
    unfold generate
    rw [hschema, hpv, hm]
    try dsimp only
    obtain ⟨hex, hgu, _, _⟩ := executePhase_spec oracle exec req none none
      (buildState fallbackConfig).rate_limiter
    exact ⟨hex, hgu⟩

/-- Witness for the amended C7: an unknown provider name on the fallback
state is rejected with ProviderNotFound, status 400. -/
theorem empty_config_provider_rejection_witness :
    (generate permissiveOracle execOkNull (buildState fallbackConfig)
      ⟨"nope", none, "hi", goodSchema⟩ 0 0).response
      = Except.error (AppError.ProviderNotFound "nope") ∧
    (AppError.ProviderNotFound "nope").status = 400 :=
  (empty_config_provider_rejection permissiveOracle execOkNull
    ⟨"nope", none, "hi", goodSchema⟩ 0 0 rfl).1 rfl

end LlmMux
